import Mathlib

/-!
Verification of the vr-status bridge (Rust) against its specification.

The development shallowly embeds the concurrency core of the repository:

* `WatchState` / `watchSend` / `borrowAndUpdate`: the `tokio::sync::watch`
  channels used as the three State Channels (src/main.rs lines 68-79,
  src/mqtt.rs lines 15-37).
* `mainStep` / `mainLoop`: the Event Translator loop (src/main.rs,
  `main_loop`, lines 90-149).  External lookups against the native runtime
  (foreground pid, application key, name property bytes) are supplied per
  poll item as an environment oracle.
* `get_application_property_string`: the buffer-growth string-property
  fetch of src/openvr.rs lines 222-257, including UTF-8 validation
  (`utf8Decode` embeds the standard UTF-8 decoding that Rust's
  `String::from_utf8` validates against).
* `mqttLoop` / `steadyLoop` / `runPublishes`: the Telemetry Publisher
  (src/mqtt.rs `mqtt_loop`, lines 39-209).  Network publish outcomes are
  supplied by an oracle list (`true` = the awaited publish succeeded);
  the three multiplexed `select!` sources are supplied as a list of
  `PubStep`s (the scheduler's choices).
* `supervisorRun`: the Connection Supervisor task (src/mqtt.rs lines
  76-116) with wall-clock time modelled as naturals (milliseconds).
-/

set_option linter.unusedVariables false

namespace VrStatus

/-! ### State Channels: the `tokio::sync::watch` model

A watch channel holds a single slot `value` plus a `version` counter that
`send` bumps; each receiver remembers the last `version` it acknowledged.
`send` overwrites unconditionally (coalescing, never queuing, never
blocking); `borrow_and_update` returns the current value and marks it seen.
-/

structure WatchState (α : Type) where
  value : α
  version : Nat
deriving DecidableEq

/-- One `Sender::send`: overwrite the slot and bump the version. -/
def watchSend {α : Type} (s : WatchState α) (v : α) : WatchState α :=
  ⟨v, s.version + 1⟩

/-- A sequence of `send` calls, in order. -/
def watchSendAll {α : Type} (s : WatchState α) (vs : List α) : WatchState α :=
  vs.foldl watchSend s

structure WatchReader where
  seen : Nat
deriving DecidableEq

/-- One `Receiver::borrow_and_update`: observe the current value and record
its version as seen. -/
def borrowAndUpdate {α : Type} (s : WatchState α) (r : WatchReader) : α × WatchReader :=
  (s.value, ⟨s.version⟩)

/-- Whether `Receiver::changed()` would report a pending change. -/
def hasChanged {α : Type} (s : WatchState α) (r : WatchReader) : Bool :=
  s.version != r.seen

/-! ### UTF-8 decoding (src/openvr.rs line 253, `String::from_utf8`)

Standard UTF-8 decoding on a byte list (bytes as naturals below 256):
rejects overlong encodings, surrogate code points and values above
U+10FFFF, exactly the validation Rust's `String::from_utf8` performs.
Returns the decoded character list, or `none` for invalid input.
-/

/-- Whether a byte is a UTF-8 continuation byte in `[lo, hi]`. -/
def utf8ContIn (lo hi b : Nat) : Bool :=
  lo ≤ b && b ≤ hi

def utf8Decode : List Nat → Option (List Char)
  | [] => some []
  | b :: rest =>
    if b ≤ 0x7F then
      (utf8Decode rest).map (fun cs => Char.ofNat b :: cs)
    else if 0xC2 ≤ b && b ≤ 0xDF then
      match rest with
      | b1 :: r =>
        if utf8ContIn 0x80 0xBF b1 then
          (utf8Decode r).map (fun cs =>
            Char.ofNat ((b - 0xC0) * 64 + (b1 - 0x80)) :: cs)
        else none
      | _ => none
    else if 0xE0 ≤ b && b ≤ 0xEF then
      match rest with
      | b1 :: b2 :: r =>
        let lo1 : Nat := if b = 0xE0 then 0xA0 else 0x80
        let hi1 : Nat := if b = 0xED then 0x9F else 0xBF
        if utf8ContIn lo1 hi1 b1 && utf8ContIn 0x80 0xBF b2 then
          (utf8Decode r).map (fun cs =>
            Char.ofNat ((b - 0xE0) * 4096 + (b1 - 0x80) * 64 + (b2 - 0x80)) :: cs)
        else none
      | _ => none
    else if 0xF0 ≤ b && b ≤ 0xF4 then
      match rest with
      | b1 :: b2 :: b3 :: r =>
        let lo1 : Nat := if b = 0xF0 then 0x90 else 0x80
        let hi1 : Nat := if b = 0xF4 then 0x8F else 0xBF
        if utf8ContIn lo1 hi1 b1 && utf8ContIn 0x80 0xBF b2 && utf8ContIn 0x80 0xBF b3 then
          (utf8Decode r).map (fun cs =>
            Char.ofNat ((b - 0xF0) * 262144 + (b1 - 0x80) * 4096
              + (b2 - 0x80) * 64 + (b3 - 0x80)) :: cs)
        else none
      | _ => none
    else none

/-- Decoded byte list as a string, `none` when not valid UTF-8. -/
def utf8DecodeString (l : List Nat) : Option String :=
  (utf8Decode l).map fun cs => ⟨cs⟩

/-! ### The native string-property fetch (src/openvr.rs lines 222-257)

The native call is modelled by an oracle: `err` is the `EVRApplicationError`
it reports and `raw` the bytes it writes when given a large enough buffer
(`needed`, its return value, is `raw.length`; for a well-formed native
response `raw` ends in a null terminator).
-/

structure NativeStringResult where
  err : Nat
  raw : List Nat
deriving DecidableEq

/-- Embeds the `loop` of `get_application_property_string`: call the native
function with the current capacity; a nonzero error bails; if the buffer was
too small, reserve `needed` bytes and retry; otherwise drop the trailing
null terminator (`set_len(needed - 1)`) and validate as UTF-8. -/
def propertyStringLoop (r : NativeStringResult) (cap : Nat) : Except String String :=
  if r.err ≠ 0 then
    .error "GetApplicationPropertyString error"
  else if h : r.raw.length > cap then
    propertyStringLoop r r.raw.length
  else
    match utf8DecodeString r.raw.dropLast with
    | some s => .ok s
    | none => .error "Invalid characters in string"
termination_by r.raw.length - cap
decreasing_by omega

def get_application_property_string (r : NativeStringResult) : Except String String :=
  propertyStringLoop r 0

/-! ### The Event Translator (src/main.rs `main_loop`, lines 90-149) -/

inductive VrEventType where
  | sceneApplicationChanged
  | sceneApplicationStateChanged
  | enterStandbyMode
  | leaveStandbyMode
  | quit
  | other (code : Nat)
deriving DecidableEq

/-- The native lookups a scene-application event consults:
`pid` is `get_current_scene_process_id()`, `key` the result of
`get_application_key_by_process_id` (`none` = error), `nameNative` the
oracle for `get_application_property_string`. -/
structure SceneEnv where
  pid : Nat
  key : Option String
  nameNative : NativeStringResult
deriving DecidableEq

/-- One `poll_next_event` outcome together with its lookup environment. -/
inductive PollItem where
  | noEvent
  | event (t : VrEventType) (env : SceneEnv)
deriving DecidableEq

/-- Externally visible actions of the Translator other than channel sends
(sends are visible in the resulting `Channels`). -/
inductive TransAction where
  | sleepPoll
  | logKeyError
  | logNameError
  | ackQuit
deriving DecidableEq

inductive TransExit where
  | quitOk
  | sendError
deriving DecidableEq

/-- The two State Channels owned by the Translator's `MqttHandle`. -/
structure Channels where
  active : WatchState Bool
  application : WatchState String
deriving DecidableEq

/-- One iteration of `main_loop`.  `activeOpen` / `applicationOpen` say
whether the corresponding watch receiver still exists (a `send` on a channel
with no receiver returns `Err`, which `main_loop` propagates with `?`). -/
def mainStep (activeOpen applicationOpen : Bool) (st : Channels) (it : PollItem) :
    List TransAction × Channels × Option TransExit :=
  match it with
  | .noEvent => ([.sleepPoll], st, none)
  | .event t env =>
    match t with
    | .sceneApplicationChanged | .sceneApplicationStateChanged =>
      if env.pid ≠ 0 then
        match env.key with
        | some _ =>
          match get_application_property_string env.nameNative with
          | .ok name =>
            if applicationOpen then
              ([], ⟨st.active, watchSend st.application name⟩, none)
            else
              ([], st, some .sendError)
          | .error _ => ([.logNameError], st, none)
        | none => ([.logKeyError], st, none)
      else ([], st, none)
    | .enterStandbyMode =>
      if activeOpen then ([], ⟨watchSend st.active false, st.application⟩, none)
      else ([], st, some .sendError)
    | .leaveStandbyMode =>
      if activeOpen then ([], ⟨watchSend st.active true, st.application⟩, none)
      else ([], st, some .sendError)
    | .quit => ([.ackQuit], st, some .quitOk)
    | .other _ => ([], st, none)

/-- The Translator loop over a finite schedule of poll outcomes.  Returns
the emitted actions, the final channel states, and `some` exit when the
loop ended (`none` = schedule exhausted with the loop still running). -/
def mainLoop (activeOpen applicationOpen : Bool) :
    Channels → List PollItem → List TransAction × Channels × Option TransExit
  | st, [] => ([], st, none)
  | st, it :: rest =>
    match mainStep activeOpen applicationOpen st it with
    | (as, st', none) =>
      match mainLoop activeOpen applicationOpen st' rest with
      | (bs, st'', e) => (as ++ bs, st'', e)
    | (as, st', some e) => (as, st', some e)

/-! ### Configuration (src/settings.rs)

`pfx` embeds the source field `prefix` and `hassPfx` the source field
`hass_prefix` (`prefix` is a Lean keyword). -/

inductive MqttTransport where
  | tcp
  | tls
deriving DecidableEq

structure MqttCredential where
  username : String
  password : String
deriving DecidableEq

structure MqttSettings where
  host : String
  port : Option Nat
  transport : MqttTransport
  credentials : Option MqttCredential
deriving DecidableEq

structure Settings where
  id : String
  name : String
  pfx : String
  hassPfx : String
  mqtt : MqttSettings
deriving DecidableEq

/-! ### The Telemetry Publisher (src/mqtt.rs `mqtt_loop`, lines 39-209) -/

/-- Topic `format!("{}/{}/power", settings.prefix, settings.id)`. -/
def powerTopic (s : Settings) : String := s.pfx ++ "/" ++ s.id ++ "/power"

/-- Topic `format!("{}/{}/active", settings.prefix, settings.id)`. -/
def activeTopic (s : Settings) : String := s.pfx ++ "/" ++ s.id ++ "/active"

/-- Topic `format!("{}/{}/application", settings.prefix, settings.id)`. -/
def applicationTopic (s : Settings) : String := s.pfx ++ "/" ++ s.id ++ "/application"

/-- Port selection of src/mqtt.rs lines 44-50. -/
def mqttPort (s : Settings) : Nat :=
  match s.mqtt.port with
  | some p => p
  | none =>
    match s.mqtt.transport with
    | .tcp => 1883
    | .tls => 8883

inductive QoS where
  | atMostOnce
  | atLeastOnce
  | exactlyOnce
deriving DecidableEq

/-- One entry of the `availability` array in a discovery payload. -/
structure Availability where
  topic : String
  payload_available : String
  payload_not_available : String
deriving DecidableEq

/-- The structured JSON object serialized for a discovery message
(src/mqtt.rs lines 127-132, 143-153, 164-173). -/
structure DiscoveryConfig where
  name : String
  device_class : Option String
  state_topic : String
  availability : Option Availability
deriving DecidableEq

/-- A published payload: either a plain string or a serialized discovery
configuration object. -/
inductive Payload where
  | text (s : String)
  | json (c : DiscoveryConfig)
deriving DecidableEq

structure LastWill where
  topic : String
  message : String
  qos : QoS
  retain : Bool
deriving DecidableEq

/-- The last will registered at connection setup (src/mqtt.rs line 68). -/
def lastWill (s : Settings) : LastWill :=
  ⟨powerTopic s, "OFF", .atLeastOnce, true⟩

/-- Externally visible operations of the Publisher on the network client. -/
inductive Action where
  | publish (topic : String) (qos : QoS) (retain : Bool) (payload : Payload)
  | disconnect
  | awaitSupervisor
deriving DecidableEq

/-- The three retained discovery publishes of src/mqtt.rs lines 118-176,
in source order. -/
def discoveryMessages (s : Settings) : List Action :=
  [ .publish (s.hassPfx ++ "/binary_sensor/" ++ s.id ++ "_power/config")
      .atLeastOnce true
      (.json ⟨s.name ++ " Power", some "power", powerTopic s, none⟩),
    .publish (s.hassPfx ++ "/binary_sensor/" ++ s.id ++ "_active/config")
      .atLeastOnce true
      (.json ⟨s.name ++ " Active", some "moving", activeTopic s,
        some ⟨powerTopic s, "ON", "OFF"⟩⟩),
    .publish (s.hassPfx ++ "/sensor/" ++ s.id ++ "_application/config")
      .atLeastOnce true
      (.json ⟨s.name ++ " Application", none, applicationTopic s,
        some ⟨powerTopic s, "ON", "OFF"⟩⟩) ]

/-- Pop the next network outcome from the oracle (`true` = the awaited
publish succeeded; an exhausted oracle means success). -/
def takeOutcome : List Bool → Bool × List Bool
  | [] => (true, [])
  | b :: r => (b, r)

/-- Run a sequence of `client.publish(..).await?` calls: each call is made
(so its action is recorded) and a failing one propagates `Err` at once,
skipping the rest. -/
def runPublishes : List Action → List Bool → List Action × Bool × List Bool
  | [], o => ([], true, o)
  | a :: rest, o =>
    let (ok, o') := takeOutcome o
    if ok then
      match runPublishes rest o' with
      | (as, succ, o'') => (a :: as, succ, o'')
    else ([a], false, o')

/-- One resolution of the steady-state `select!` (src/mqtt.rs lines
178-202): which of the three awaited sources became ready, and with what.
`none` models a closed channel (`recv()` returned `None`, or `changed()`
returned `Err`); for the watch channels the carried value is what
`borrow_and_update()` then observes. -/
inductive PubStep where
  | connectRecv (v : Option Unit)
  | activeChanged (v : Option Bool)
  | applicationChanged (v : Option String)
deriving DecidableEq

inductive LoopExit where
  | channelClosed
  | publishError
  | stillRunning
deriving DecidableEq

/-- The steady-state loop of `mqtt_loop`.  Returns the publish actions it
performed, how it ended, and the unconsumed remainder of the schedule
(`stillRunning` = schedule exhausted while the loop would keep going). -/
def steadyLoop (s : Settings) : List Bool → List PubStep → List Action × LoopExit × List PubStep
  | _, [] => ([], .stillRunning, [])
  | o, step :: rest =>
    match step with
    | .connectRecv none => ([], .channelClosed, rest)
    | .connectRecv (some _) =>
      let (ok, o') := takeOutcome o
      let a := Action.publish (powerTopic s) .atLeastOnce true (.text "ON")
      if ok then
        match steadyLoop s o' rest with
        | (as, e, rem) => (a :: as, e, rem)
      else ([a], .publishError, rest)
    | .activeChanged none => ([], .channelClosed, rest)
    | .activeChanged (some v) =>
      let (ok, o') := takeOutcome o
      let a := Action.publish (activeTopic s) .atLeastOnce true
        (.text (if v then "ON" else "OFF"))
      if ok then
        match steadyLoop s o' rest with
        | (as, e, rem) => (a :: as, e, rem)
      else ([a], .publishError, rest)
    | .applicationChanged none => ([], .channelClosed, rest)
    | .applicationChanged (some v) =>
      let (ok, o') := takeOutcome o
      let a := Action.publish (applicationTopic s) .atLeastOnce true (.text v)
      if ok then
        match steadyLoop s o' rest with
        | (as, e, rem) => (a :: as, e, rem)
      else ([a], .publishError, rest)

inductive MqttOutcome where
  | ok
  | error
  | stillRunning
deriving DecidableEq

/-- The whole of `mqtt_loop` after the supervisor task is spawned: the
discovery block (only when `hass_prefix` is non-empty), then the steady
loop; a closed channel breaks the loop and is followed by
`client.disconnect()` and awaiting the supervisor task; any failed publish
propagates `Err` immediately, skipping the disconnect. -/
def mqttLoop (s : Settings) (o : List Bool) (steps : List PubStep) :
    List Action × MqttOutcome :=
  let disc := if s.hassPfx = "" then [] else discoveryMessages s
  match runPublishes disc o with
  | (das, false, _) => (das, .error)
  | (das, true, o') =>
    match steadyLoop s o' steps with
    | (bs, .channelClosed, _) => (das ++ bs ++ [.disconnect, .awaitSupervisor], .ok)
    | (bs, .publishError, _) => (das ++ bs, .error)
    | (bs, .stillRunning, _) => (das ++ bs, .stillRunning)

/-! ### The Connection Supervisor (src/mqtt.rs lines 76-116)

Wall-clock time is modelled in milliseconds as a natural number.  Each
schedule item says what `event_loop.poll().await` produced and how long the
await took; `now` is the current instant, `start` the `Instant` stored in
the `start` variable, `stop` the `stop` flag. -/

inductive SupPoll where
  | connAckSuccess
  | outgoingDisconnect
  | otherOk
  | pollError
deriving DecidableEq

structure SupItem where
  res : SupPoll
  dur : Nat
deriving DecidableEq

structure SupState where
  now : Nat
  start : Nat
  stop : Bool
deriving DecidableEq

/-- Observable events of the supervisor task, with the instant at which
they happen; `errorHandled` also records the value of `start` at the
moment the error was handled. -/
inductive SupEvent where
  | connectNotify (time : Nat)
  | errorHandled (time : Nat) (iterStart : Nat)
  | exitStopping (time : Nat)
deriving DecidableEq

/-- `MIN_DELAY` of src/mqtt.rs line 82, in milliseconds. -/
def MIN_DELAY : Nat := 1000

/-- The supervisor loop over a schedule of poll results.  On a handled
error the task sleeps `MIN_DELAY - start.elapsed()` when that is positive
and then sets `start` to the instant after the sleep. -/
def supervisorRun : SupState → List SupItem → List SupEvent
  | _, [] => []
  | st, p :: rest =>
    let t := st.now + p.dur
    match p.res with
    | .connAckSuccess => .connectNotify t :: supervisorRun ⟨t, st.start, st.stop⟩ rest
    | .outgoingDisconnect => supervisorRun ⟨t, st.start, true⟩ rest
    | .otherOk => supervisorRun ⟨t, st.start, st.stop⟩ rest
    | .pollError =>
      if st.stop then [.exitStopping t]
      else
        let t' := if t < st.start + MIN_DELAY then st.start + MIN_DELAY else t
        .errorHandled t st.start :: supervisorRun ⟨t', t', false⟩ rest

/-- The (time, recorded iteration start) pairs of the handled errors, in
order of occurrence. -/
def errorEvents : List SupEvent → List (Nat × Nat)
  | [] => []
  | .errorHandled t s :: rest => (t, s) :: errorEvents rest
  | _ :: rest => errorEvents rest

/-! ### Observation predicates used by the claims -/

/-- Whether an action is a publish to the power topic. -/
def isPowerPub (s : Settings) (a : Action) : Bool :=
  match a with
  | .publish t _ _ _ => t == powerTopic s
  | _ => false

/-- Every publish to the power topic is the retained, at-least-once
publish of the plain payload ON. -/
def powerOk (s : Settings) (a : Action) : Bool :=
  match a with
  | .publish t q r p =>
    if t == powerTopic s then
      (q == QoS.atLeastOnce) && r && (p == Payload.text "ON")
    else true
  | _ => true

/-- Number of fresh-connect notifications consumed from a schedule. -/
def connectCount (steps : List PubStep) : Nat :=
  steps.countP fun st => match st with
    | .connectRecv (some _) => true
    | _ => false

/-- Number of publishes to the power topic in an action trace. -/
def powerPubCount (s : Settings) (as : List Action) : Nat :=
  as.countP (isPowerPub s)

/-- Whether an action is not a discovery message (discovery messages are
exactly the publishes carrying a serialized configuration object). -/
def nonDiscovery (a : Action) : Bool :=
  match a with
  | .publish _ _ _ (.json _) => false
  | _ => true

/-! ### Helper lemmas -/

/-- Characterization of the string-property fetch: the buffer-growth loop
always ends after the retry with a large enough buffer, so the result is
the decoded bytes minus the trailing terminator, or an error. -/
theorem gaps_eq (r : NativeStringResult) :
    get_application_property_string r =
      if r.err ≠ 0 then .error "GetApplicationPropertyString error"
      else match utf8DecodeString r.raw.dropLast with
        | some s => .ok s
        | none => .error "Invalid characters in string" := by
  rw [get_application_property_string, propertyStringLoop]
  by_cases h : r.err ≠ 0
  · simp [h]
  · simp only [h, if_false, dite_eq_ite]
    by_cases h2 : r.raw.length > 0
    · rw [if_pos h2, propertyStringLoop]
      simp [h, show ¬ (r.raw.length > r.raw.length) by omega]
    · rw [if_neg h2]

theorem watchSendAll_value {α : Type} : ∀ (vs : List α) (s : WatchState α),
    (watchSendAll s vs).value = vs.getLast?.getD s.value := by
  intro vs
  induction vs with
  | nil => intro s; simp [watchSendAll]
  | cons v rest ih =>
    intro s
    have h : watchSendAll s (v :: rest) = watchSendAll (watchSend s v) rest := rfl
    rw [h, ih]
    cases rest with
    | nil => simp [watchSend]
    | cons w r =>
      have h2 := List.getLast?_eq_getLast (w :: r) (by simp)
      simp [h2]

theorem data_last_ne {s t : String} (h : s.data.getLast? ≠ t.data.getLast?) : s ≠ t :=
  fun he => h (by rw [he])

theorem or_some_left {c : Char} (X : Option Char) : (some c).or X = some c := rfl

theorem activeTopic_ne_powerTopic (s : Settings) : activeTopic s ≠ powerTopic s := by
  apply data_last_ne
  simp only [activeTopic, powerTopic, String.data_append, List.getLast?_append]
  rw [show "/active".data.getLast? = some 'e' from rfl,
    show "/power".data.getLast? = some 'r' from rfl, or_some_left, or_some_left]
  decide

theorem applicationTopic_ne_powerTopic (s : Settings) : applicationTopic s ≠ powerTopic s := by
  apply data_last_ne
  simp only [applicationTopic, powerTopic, String.data_append, List.getLast?_append]
  rw [show "/application".data.getLast? = some 'n' from rfl,
    show "/power".data.getLast? = some 'r' from rfl, or_some_left, or_some_left]
  decide

theorem discovery_power_ne (s : Settings) :
    s.hassPfx ++ "/binary_sensor/" ++ s.id ++ "_power/config" ≠ powerTopic s := by
  apply data_last_ne
  simp only [powerTopic, String.data_append, List.getLast?_append]
  rw [show "_power/config".data.getLast? = some 'g' from rfl,
    show "/power".data.getLast? = some 'r' from rfl, or_some_left, or_some_left]
  decide

theorem discovery_active_ne (s : Settings) :
    s.hassPfx ++ "/binary_sensor/" ++ s.id ++ "_active/config" ≠ powerTopic s := by
  apply data_last_ne
  simp only [powerTopic, String.data_append, List.getLast?_append]
  rw [show "_active/config".data.getLast? = some 'g' from rfl,
    show "/power".data.getLast? = some 'r' from rfl, or_some_left, or_some_left]
  decide

theorem discovery_application_ne (s : Settings) :
    s.hassPfx ++ "/sensor/" ++ s.id ++ "_application/config" ≠ powerTopic s := by
  apply data_last_ne
  simp only [powerTopic, String.data_append, List.getLast?_append]
  rw [show "_application/config".data.getLast? = some 'g' from rfl,
    show "/power".data.getLast? = some 'r' from rfl, or_some_left, or_some_left]
  decide

theorem steadyLoop_powerOk (s : Settings) :
    ∀ (steps : List PubStep) (o : List Bool),
    ((steadyLoop s o steps).1.all (powerOk s)) = true := by
  intro steps
  induction steps with
  | nil => intro o; simp [steadyLoop]
  | cons step rest ih =>
    intro o
    rcases step with v | v | v
    · rcases v with _ | v
      · simp [steadyLoop]
      · rcases ho : takeOutcome o with ⟨ok, o'⟩
        cases ok <;> simp [steadyLoop, ho, powerOk, ih o']
    · rcases v with _ | v
      · simp [steadyLoop]
      · rcases ho : takeOutcome o with ⟨ok, o'⟩
        have hne := activeTopic_ne_powerTopic s
        cases ok <;> simp [steadyLoop, ho, powerOk, beq_eq_false_iff_ne, hne, ih o']
    · rcases v with _ | v
      · simp [steadyLoop]
      · rcases ho : takeOutcome o with ⟨ok, o'⟩
        have hne := applicationTopic_ne_powerTopic s
        cases ok <;> simp [steadyLoop, ho, powerOk, beq_eq_false_iff_ne, hne, ih o']

theorem connectCount_nil : connectCount [] = 0 := rfl

theorem connectCount_cons_some (v : Unit) (rest : List PubStep) :
    connectCount (.connectRecv (some v) :: rest) = connectCount rest + 1 := by
  simp [connectCount, List.countP_cons]

theorem connectCount_cons_none (rest : List PubStep) :
    connectCount (.connectRecv none :: rest) = connectCount rest := by
  simp [connectCount, List.countP_cons]

theorem connectCount_cons_active (v : Option Bool) (rest : List PubStep) :
    connectCount (.activeChanged v :: rest) = connectCount rest := by
  simp [connectCount, List.countP_cons]

theorem connectCount_cons_application (v : Option String) (rest : List PubStep) :
    connectCount (.applicationChanged v :: rest) = connectCount rest := by
  simp [connectCount, List.countP_cons]

theorem powerPubCount_nil (s : Settings) : powerPubCount s [] = 0 := rfl

theorem powerPubCount_cons_power (s : Settings) (q : QoS) (r : Bool) (p : Payload)
    (rest : List Action) :
    powerPubCount s (.publish (powerTopic s) q r p :: rest) = powerPubCount s rest + 1 := by
  simp [powerPubCount, isPowerPub, List.countP_cons]

theorem powerPubCount_cons_ne (s : Settings) (t : String) (q : QoS) (r : Bool) (p : Payload)
    (rest : List Action) (h : t ≠ powerTopic s) :
    powerPubCount s (.publish t q r p :: rest) = powerPubCount s rest := by
  simp [powerPubCount, isPowerPub, List.countP_cons, beq_eq_false_iff_ne, h]

/-- Counting invariant of the steady loop: power-topic publishes already
made plus fresh-connect notifications not yet consumed equal the
fresh-connect notifications of the whole schedule. -/
theorem steadyLoop_count (s : Settings) :
    ∀ (steps : List PubStep) (o : List Bool),
    powerPubCount s (steadyLoop s o steps).1
      + connectCount (steadyLoop s o steps).2.2 = connectCount steps := by
  intro steps
  induction steps with
  | nil => intro o; simp [steadyLoop, powerPubCount_nil, connectCount_nil]
  | cons step rest ih =>
    intro o
    rcases step with v | v | v
    · rcases v with _ | v
      · simp only [steadyLoop]
        rw [powerPubCount_nil, connectCount_cons_none]
        omega
      · rcases ho : takeOutcome o with ⟨ok, o'⟩
        rcases hrec : steadyLoop s o' rest with ⟨as, e, rem⟩
        have h := ih o'
        rw [hrec] at h
        cases ok <;> simp [steadyLoop, ho, hrec] <;>
          rw [powerPubCount_cons_power, connectCount_cons_some] <;>
          simp only [powerPubCount_nil] at * <;> omega
    · rcases v with _ | v
      · simp only [steadyLoop]
        rw [powerPubCount_nil, connectCount_cons_active]
        omega
      · rcases ho : takeOutcome o with ⟨ok, o'⟩
        rcases hrec : steadyLoop s o' rest with ⟨as, e, rem⟩
        have h := ih o'
        rw [hrec] at h
        have hne := activeTopic_ne_powerTopic s
        cases ok <;> simp [steadyLoop, ho, hrec] <;>
          rw [powerPubCount_cons_ne s _ _ _ _ _ hne, connectCount_cons_active] <;>
          simp only [powerPubCount_nil] at * <;> omega
    · rcases v with _ | v
      · simp only [steadyLoop]
        rw [powerPubCount_nil, connectCount_cons_application]
        omega
      · rcases ho : takeOutcome o with ⟨ok, o'⟩
        rcases hrec : steadyLoop s o' rest with ⟨as, e, rem⟩
        have h := ih o'
        rw [hrec] at h
        have hne := applicationTopic_ne_powerTopic s
        cases ok <;> simp [steadyLoop, ho, hrec] <;>
          rw [powerPubCount_cons_ne s _ _ _ _ _ hne, connectCount_cons_application] <;>
          simp only [powerPubCount_nil] at * <;> omega

theorem steadyLoop_nonDiscovery (s : Settings) :
    ∀ (steps : List PubStep) (o : List Bool),
    ((steadyLoop s o steps).1.all nonDiscovery) = true := by
  intro steps
  induction steps with
  | nil => intro o; simp [steadyLoop]
  | cons step rest ih =>
    intro o
    rcases step with v | v | v <;> rcases v with _ | v <;>
      try (simp [steadyLoop]; done)
    all_goals
      rcases ho : takeOutcome o with ⟨ok, o'⟩
      cases ok <;> simp [steadyLoop, ho, nonDiscovery, ih o']

theorem runPublishes_all (p : Action → Bool) :
    ∀ (as : List Action) (o : List Bool), as.all p = true →
    ((runPublishes as o).1.all p) = true := by
  intro as
  induction as with
  | nil => intro o h; simp [runPublishes]
  | cons a rest ih =>
    intro o h
    simp at h
    rcases ho : takeOutcome o with ⟨ok, o'⟩
    cases ok
    · simp [runPublishes, ho, h.1]
    · rcases hr : runPublishes rest o' with ⟨bs, succ, o''⟩
      have hall := ih o' (by simp [List.all_eq_true]; exact h.2)
      rw [hr] at hall
      simp [runPublishes, ho, hr, h.1, hall]

theorem discoveryMessages_powerOk (s : Settings) :
    ((discoveryMessages s).all (powerOk s)) = true := by
  have h1 := discovery_power_ne s
  have h2 := discovery_active_ne s
  have h3 := discovery_application_ne s
  simp [discoveryMessages, powerOk, beq_eq_false_iff_ne, h1, h2, h3]

theorem discoveryMessages_powerPubCount (s : Settings) :
    powerPubCount s (discoveryMessages s) = 0 := by
  have h1 := discovery_power_ne s
  have h2 := discovery_active_ne s
  have h3 := discovery_application_ne s
  simp [discoveryMessages, powerPubCount, isPowerPub, List.countP_cons,
    beq_eq_false_iff_ne, h1, h2, h3]

/-- One Translator iteration acknowledges a quit exactly when it exits with
`quitOk`, and then its whole action list is that single acknowledgement. -/
theorem mainStep_ackQuit (aOpen sOpen : Bool) (st : Channels) (it : PollItem) :
    ((mainStep aOpen sOpen st it).1.count TransAction.ackQuit
      = if (mainStep aOpen sOpen st it).2.2 = some TransExit.quitOk then 1 else 0) ∧
    ((mainStep aOpen sOpen st it).2.2 = some TransExit.quitOk →
      (mainStep aOpen sOpen st it).1 = [TransAction.ackQuit]) := by
  cases it with
  | noEvent => simp [mainStep]
  | event t env =>
    cases t with
    | sceneApplicationChanged | sceneApplicationStateChanged =>
      by_cases hp : env.pid ≠ 0
      · rcases hk : env.key with _ | k
        · simp [mainStep, hp, hk]
        · rcases hg : get_application_property_string env.nameNative with e | nm
          · simp [mainStep, hp, hk, hg]
          · cases sOpen <;> simp [mainStep, hp, hk, hg]
      · simp [mainStep, hp]
    | enterStandbyMode => cases aOpen <;> simp [mainStep]
    | leaveStandbyMode => cases aOpen <;> simp [mainStep]
    | quit => simp [mainStep]
    | other c => simp [mainStep]

theorem mainLoop_ackQuit (aOpen sOpen : Bool) :
    ∀ (items : List PollItem) (st : Channels),
    ((mainLoop aOpen sOpen st items).1.count TransAction.ackQuit
      = if (mainLoop aOpen sOpen st items).2.2 = some TransExit.quitOk then 1 else 0) ∧
    ((mainLoop aOpen sOpen st items).2.2 = some TransExit.quitOk →
      (mainLoop aOpen sOpen st items).1.getLast? = some TransAction.ackQuit) := by
  intro items
  induction items with
  | nil => intro st; simp [mainLoop]
  | cons it rest ih =>
    intro st
    rcases hs : mainStep aOpen sOpen st it with ⟨as, st', e⟩
    have hstep := mainStep_ackQuit aOpen sOpen st it
    rw [hs] at hstep
    obtain ⟨hsc, hsl⟩ := hstep
    cases e with
    | none =>
      rcases hr : mainLoop aOpen sOpen st' rest with ⟨bs, st'', e'⟩
      obtain ⟨hc, hl⟩ := ih st'
      rw [hr] at hc hl
      simp at hsc
      constructor
      · simp [mainLoop, hs, hr, List.count_append, hsc, hc]
      · intro hq
        simp [mainLoop, hs, hr] at hq ⊢
        simp [List.getLast?_append, hl hq]
    | some ex =>
      constructor
      · simp [mainLoop, hs, hsc]
      · intro hq
        simp [mainLoop, hs] at hq ⊢
        subst hq
        have h2 : as = [TransAction.ackQuit] := hsl rfl
        simp [h2]

/-- Invariant of the supervisor loop: every handled error happens no
earlier than the current instant, its recorded iteration start is no
earlier than the current one, and consecutive handled errors satisfy the
backoff law. -/
theorem sup_invariant : ∀ (ps : List SupItem) (st : SupState), st.start ≤ st.now →
    (∀ e ∈ errorEvents (supervisorRun st ps), st.now ≤ e.1 ∧ st.start ≤ e.2)
    ∧ List.Chain' (fun e1 e2 => e1.2 + MIN_DELAY ≤ e2.1 ∧ e1.1 ≤ e2.1)
        (errorEvents (supervisorRun st ps)) := by
  intro ps
  induction ps with
  | nil => intro st h; simp [supervisorRun, errorEvents]
  | cons p rest ih =>
    intro st h
    rcases p with ⟨res, dur⟩
    cases res with
    | connAckSuccess =>
      have hih := ih ⟨st.now + dur, st.start, st.stop⟩ (by simp; omega)
      simp only [supervisorRun, errorEvents] at hih ⊢
      exact ⟨fun e he => ⟨by have := (hih.1 e he).1; simp at this; omega,
        by have := (hih.1 e he).2; simpa using this⟩, hih.2⟩
    | outgoingDisconnect =>
      have hih := ih ⟨st.now + dur, st.start, true⟩ (by simp; omega)
      simp only [supervisorRun, errorEvents] at hih ⊢
      exact ⟨fun e he => ⟨by have := (hih.1 e he).1; simp at this; omega,
        by have := (hih.1 e he).2; simpa using this⟩, hih.2⟩
    | otherOk =>
      have hih := ih ⟨st.now + dur, st.start, st.stop⟩ (by simp; omega)
      simp only [supervisorRun, errorEvents] at hih ⊢
      exact ⟨fun e he => ⟨by have := (hih.1 e he).1; simp at this; omega,
        by have := (hih.1 e he).2; simpa using this⟩, hih.2⟩
    | pollError =>
      cases hstop : st.stop with
      | true => simp [supervisorRun, hstop, errorEvents]
      | false =>
        simp only [supervisorRun, hstop, errorEvents]
        set t := st.now + dur with ht
        set t' := if t < st.start + MIN_DELAY then st.start + MIN_DELAY else t with ht'
        have htt' : t ≤ t' := by rw [ht']; split <;> omega
        have hst' : st.start + MIN_DELAY ≤ t' := by rw [ht']; split <;> omega
        have hih := ih ⟨t', t', false⟩ (le_refl t')
        constructor
        · intro e he
          simp only [List.mem_cons] at he
          rcases he with rfl | he
          · exact ⟨by omega, le_refl _⟩
          · have h1 := (hih.1 e he).1
            have h2 := (hih.1 e he).2
            simp only at h1 h2
            exact ⟨by omega, by omega⟩
        · rw [List.chain'_cons']
          refine ⟨fun y hy => ?_, hih.2⟩
          have hmem : y ∈ errorEvents (supervisorRun ⟨t', t', false⟩ rest) :=
            List.mem_of_mem_head? hy
          have h1 := (hih.1 y hmem).1
          simp only at h1
          exact ⟨by omega, by omega⟩

/-! ### The claims -/

/-- C1 (amended): whenever the Publisher's loop terminates because an
observed channel is closed (the only exits yielding outcome `ok`), the
action trace ends with the graceful `client.disconnect()` followed by
awaiting the supervisor task.  The claim's generalisation — that every way
either main loop exits runs the orderly disconnect first — is false on the
code: a failed publish propagates its error immediately, skipping the
disconnect (see the counterexample). -/
theorem C1_graceful_disconnect : ∀ (s : Settings) (o : List Bool) (steps : List PubStep),
    (mqttLoop s o steps).2 = MqttOutcome.ok →
    ∃ pre, (mqttLoop s o steps).1 = pre ++ [Action.disconnect, Action.awaitSupervisor] := by
  intro s o steps h
  simp only [mqttLoop] at h ⊢
  rcases hd : runPublishes (if s.hassPfx = "" then [] else discoveryMessages s) o
    with ⟨das, succ, o'⟩
  rw [hd] at h
  cases succ
  · simp at h
  · dsimp only at h ⊢
    rcases hs : steadyLoop s o' steps with ⟨bs, e, rem⟩
    rw [hs] at h
    cases e
    · exact ⟨das ++ bs, by simp [hs]⟩
    · simp [hs] at h
    · simp [hs] at h

/-- C1 witness: a run whose connect-notification channel closes at once
disconnects gracefully. -/
theorem C1_graceful_disconnect_witness :
    (mqttLoop ⟨"foo", "Foo", "vr-status", "", ⟨"host", none, .tls, none⟩⟩ []
        [.connectRecv none]).2 = MqttOutcome.ok
    ∧ ∃ pre, (mqttLoop ⟨"foo", "Foo", "vr-status", "", ⟨"host", none, .tls, none⟩⟩ []
        [.connectRecv none]).1 = pre ++ [Action.disconnect, Action.awaitSupervisor] :=
  ⟨by decide, C1_graceful_disconnect _ _ _ (by decide)⟩

/-- C1 counterexample: when the publish triggered by a fresh-connect
notification fails, the Publisher's loop exits with an error — ending the
process — and no disconnect was performed, refuting the claim that every
exit of a main loop is preceded by the orderly disconnect. -/
theorem C1_counterexample :
    (mqttLoop ⟨"foo", "Foo", "vr-status", "", ⟨"host", none, .tls, none⟩⟩ [false]
        [.connectRecv (some ())]).2 = MqttOutcome.error
    ∧ Action.disconnect ∉
      (mqttLoop ⟨"foo", "Foo", "vr-status", "", ⟨"host", none, .tls, none⟩⟩ [false]
        [.connectRecv (some ())]).1 := by
  decide

/-- C2: for every sequence of `set` calls on a State Channel between two
observations, the reader's next observation yields exactly the last value
set, never an intermediate one (`set` itself is a total overwrite of the
slot — it never blocks the writer). -/
theorem C2_watch_coalescing : ∀ (α : Type) (s : WatchState α) (r : WatchReader)
    (vs : List α) (h : vs ≠ []),
    (borrowAndUpdate (watchSendAll s vs) r).1 = vs.getLast h := by
  intro α s r vs h
  have h0 : (borrowAndUpdate (watchSendAll s vs) r).1 = (watchSendAll s vs).value := rfl
  rw [h0, watchSendAll_value, List.getLast?_eq_getLast vs h]
  rfl

/-- C2 witness: three rapid sets collapse to the last value. -/
theorem C2_watch_coalescing_witness :
    ([true, false, true] : List Bool) ≠ []
    ∧ (borrowAndUpdate (watchSendAll ⟨false, 0⟩ [true, false, true]) ⟨0⟩).1
        = ([true, false, true].getLast (by decide)) :=
  ⟨by decide, C2_watch_coalescing Bool ⟨false, 0⟩ ⟨0⟩ [true, false, true] (by decide)⟩

/-- C3: every publish to the power topic anywhere in a Publisher run is the
retained, at-least-once publish of payload ON; the number of power-topic
publishes of the steady loop equals the number of fresh-connect
notifications it consumed (one each); the discovery block publishes nothing
to the power topic; and the only OFF on the power topic is the last will
registered at connection setup. -/
theorem C3_power_publishes : ∀ (s : Settings) (o : List Bool) (steps : List PubStep),
    ((mqttLoop s o steps).1.all (powerOk s)) = true
    ∧ powerPubCount s (steadyLoop s o steps).1
        + connectCount (steadyLoop s o steps).2.2 = connectCount steps
    ∧ powerPubCount s (discoveryMessages s) = 0
    ∧ lastWill s = ⟨powerTopic s, "OFF", QoS.atLeastOnce, true⟩ := by
  intro s o steps
  refine ⟨?_, steadyLoop_count s steps o, discoveryMessages_powerPubCount s, rfl⟩
  unfold mqttLoop
  rcases hd : runPublishes (if s.hassPfx = "" then [] else discoveryMessages s) o
    with ⟨das, succ, o'⟩
  have hdall : das.all (powerOk s) = true := by
    have hbase : ((if s.hassPfx = "" then [] else discoveryMessages s).all (powerOk s))
        = true := by
      split
      · simp
      · exact discoveryMessages_powerOk s
    have hall := runPublishes_all (powerOk s) _ o hbase
    rw [hd] at hall
    exact hall
  cases succ
  · simp [hd, hdall]
  · rcases hs : steadyLoop s o' steps with ⟨bs, e, rem⟩
    have hball := steadyLoop_powerOk s steps o'
    rw [hs] at hball
    cases e <;> simp [hd, hs, hdall, hball, powerOk]

/-- C4: between two consecutive error-handled poll failures of the
supervisor while not stopping, at least `MIN_DELAY` (1 second) elapses
measured from the recorded start of the previous iteration (the `start`
variable at the first failure) to the second failure, and the failures
occur in nondecreasing time order. -/
theorem C4_supervisor_backoff : ∀ (st : SupState) (ps : List SupItem),
    st.start ≤ st.now →
    List.Chain' (fun e1 e2 => e1.2 + MIN_DELAY ≤ e2.1 ∧ e1.1 ≤ e2.1)
      (errorEvents (supervisorRun st ps)) :=
  fun st ps h => (sup_invariant ps st h).2

/-- C4 witness: two errors whose polls took 500 ms and 100 ms; the second
error happens at `1100 ≥ 0 + 1000`. -/
theorem C4_supervisor_backoff_witness :
    (⟨0, 0, false⟩ : SupState).start ≤ (⟨0, 0, false⟩ : SupState).now
    ∧ List.Chain' (fun e1 e2 => e1.2 + MIN_DELAY ≤ e2.1 ∧ e1.1 ≤ e2.1)
        (errorEvents (supervisorRun ⟨0, 0, false⟩
          [⟨.pollError, 500⟩, ⟨.pollError, 100⟩])) :=
  ⟨by decide, C4_supervisor_backoff ⟨0, 0, false⟩ _ (by decide)⟩

/-- C5: with discovery prefix "homeassistant" and id "foo", startup
publishes exactly the three retained discovery messages at the three
expected topics, each carrying a name and state topic, the active and
application ones also an availability clause referencing the power topic
with payloads ON and OFF; with an empty discovery prefix no discovery
message is ever published. -/
theorem C5_discovery_messages : ∀ (nm pv : String) (m : MqttSettings)
    (o : List Bool) (steps : List PubStep),
    (mqttLoop ⟨"foo", nm, pv, "homeassistant", m⟩ [] []).1 =
      [ .publish "homeassistant/binary_sensor/foo_power/config" .atLeastOnce true
          (.json ⟨nm ++ " Power", some "power",
            powerTopic ⟨"foo", nm, pv, "homeassistant", m⟩, none⟩),
        .publish "homeassistant/binary_sensor/foo_active/config" .atLeastOnce true
          (.json ⟨nm ++ " Active", some "moving",
            activeTopic ⟨"foo", nm, pv, "homeassistant", m⟩,
            some ⟨powerTopic ⟨"foo", nm, pv, "homeassistant", m⟩, "ON", "OFF"⟩⟩),
        .publish "homeassistant/sensor/foo_application/config" .atLeastOnce true
          (.json ⟨nm ++ " Application", none,
            applicationTopic ⟨"foo", nm, pv, "homeassistant", m⟩,
            some ⟨powerTopic ⟨"foo", nm, pv, "homeassistant", m⟩, "ON", "OFF"⟩⟩) ]
    ∧ ((mqttLoop ⟨"foo", nm, pv, "", m⟩ o steps).1.all nonDiscovery) = true := by
  intro nm pv m o steps
  constructor
  · simp [mqttLoop, discoveryMessages, runPublishes, takeOutcome, steadyLoop]
  · have hsteady := steadyLoop_nonDiscovery ⟨"foo", nm, pv, "", m⟩ steps o
    rcases hs : steadyLoop ⟨"foo", nm, pv, "", m⟩ o steps with ⟨bs, e, rem⟩
    rw [hs] at hsteady
    cases e <;> simp [mqttLoop, runPublishes, hs, nonDiscovery, hsteady]

/-- C6: for a scene-application event, a failed process-id-to-key or
key-to-name resolution is logged and the event dropped with no state
update and no exit; a failed `set` (receiver gone) on either channel makes
the Translator exit with an error. -/
theorem C6_translator_error_handling : ∀ (aOpen sOpen : Bool) (st : Channels)
    (t : VrEventType) (env : SceneEnv) (rest : List PollItem),
    ((t = .sceneApplicationChanged ∨ t = .sceneApplicationStateChanged) →
      env.pid ≠ 0 →
      ((env.key = none →
         mainLoop aOpen sOpen st (.event t env :: rest)
           = (.logKeyError :: (mainLoop aOpen sOpen st rest).1,
              (mainLoop aOpen sOpen st rest).2))
       ∧ (∀ k e, env.key = some k →
            get_application_property_string env.nameNative = .error e →
            mainLoop aOpen sOpen st (.event t env :: rest)
              = (.logNameError :: (mainLoop aOpen sOpen st rest).1,
                 (mainLoop aOpen sOpen st rest).2))
       ∧ (∀ k nm, env.key = some k →
            get_application_property_string env.nameNative = .ok nm →
            mainLoop aOpen false st (.event t env :: rest)
              = ([], st, some .sendError))))
    ∧ (mainLoop false sOpen st (.event .enterStandbyMode env :: rest)
        = ([], st, some .sendError)) := by
  intro aOpen sOpen st t env rest
  constructor
  · intro ht hp
    refine ⟨fun hk => ?_, fun k e hk hg => ?_, fun k nm hk hg => ?_⟩ <;>
      rcases ht with rfl | rfl <;> simp [mainLoop, mainStep, hp, hk, *]
  · simp [mainLoop, mainStep]

/-- C6 witness: a missing key is logged, a bad name is logged, and a send
with the corresponding receiver gone exits with an error. -/
theorem C6_translator_error_handling_witness :
    mainLoop true true ⟨⟨true, 0⟩, ⟨"", 0⟩⟩
        [.event .sceneApplicationChanged ⟨1, none, ⟨0, [0]⟩⟩]
      = ([.logKeyError], ⟨⟨true, 0⟩, ⟨"", 0⟩⟩, none)
    ∧ mainLoop true true ⟨⟨true, 0⟩, ⟨"", 0⟩⟩
        [.event .sceneApplicationChanged ⟨1, some "k", ⟨0, [255, 0]⟩⟩]
      = ([.logNameError], ⟨⟨true, 0⟩, ⟨"", 0⟩⟩, none)
    ∧ mainLoop true false ⟨⟨true, 0⟩, ⟨"", 0⟩⟩
        [.event .sceneApplicationChanged ⟨1, some "k", ⟨0, [71, 0]⟩⟩]
      = ([], ⟨⟨true, 0⟩, ⟨"", 0⟩⟩, some .sendError)
    ∧ mainLoop false true ⟨⟨true, 0⟩, ⟨"", 0⟩⟩
        [.event .enterStandbyMode ⟨1, none, ⟨0, [0]⟩⟩]
      = ([], ⟨⟨true, 0⟩, ⟨"", 0⟩⟩, some .sendError) := by
  refine ⟨?_, ?_, ?_, ?_⟩
  · exact ((C6_translator_error_handling true true ⟨⟨true, 0⟩, ⟨"", 0⟩⟩
      .sceneApplicationChanged ⟨1, none, ⟨0, [0]⟩⟩ []).1 (Or.inl rfl) (by decide)).1 rfl
  · exact ((C6_translator_error_handling true true ⟨⟨true, 0⟩, ⟨"", 0⟩⟩
      .sceneApplicationChanged ⟨1, some "k", ⟨0, [255, 0]⟩⟩ []).1 (Or.inl rfl)
        (by decide)).2.1 "k" "Invalid characters in string" rfl (by rw [gaps_eq]; rfl)
  · exact ((C6_translator_error_handling true true ⟨⟨true, 0⟩, ⟨"", 0⟩⟩
      .sceneApplicationChanged ⟨1, some "k", ⟨0, [71, 0]⟩⟩ []).1 (Or.inl rfl)
        (by decide)).2.2 "k" "G" rfl (by rw [gaps_eq]; rfl)
  · exact (C6_translator_error_handling true true ⟨⟨true, 0⟩, ⟨"", 0⟩⟩
      .enterStandbyMode ⟨1, none, ⟨0, [0]⟩⟩ []).2

/-- C7: a Quit event acknowledges the quit exactly once and ends the
Translator loop returning success without processing further events: the
step on Quit yields exactly one acknowledgement and exit `quitOk`; in any
run that exits with `quitOk` the acknowledgement appears exactly once and
last; and everything scheduled after the first Quit is irrelevant to the
result. -/
theorem C7_quit_handling : ∀ (aOpen sOpen : Bool) (st : Channels) (env : SceneEnv)
    (rest items : List PollItem),
    (mainLoop aOpen sOpen st (.event .quit env :: rest)
      = ([TransAction.ackQuit], st, some TransExit.quitOk))
    ∧ ((mainLoop aOpen sOpen st items).2.2 = some TransExit.quitOk →
        (mainLoop aOpen sOpen st items).1.count TransAction.ackQuit = 1 ∧
        (mainLoop aOpen sOpen st items).1.getLast? = some TransAction.ackQuit)
    ∧ (∀ (pre rest' : List PollItem),
        mainLoop aOpen sOpen st (pre ++ .event .quit env :: rest)
          = mainLoop aOpen sOpen st (pre ++ .event .quit env :: rest')) := by
  intro aOpen sOpen st env rest items
  refine ⟨by simp [mainLoop, mainStep], fun hq => ?_, fun pre => ?_⟩
  · obtain ⟨hc, hl⟩ := mainLoop_ackQuit aOpen sOpen items st
    exact ⟨by rw [hc, if_pos hq], hl hq⟩
  · induction pre generalizing st with
    | nil => intro rest'; simp [mainLoop, mainStep]
    | cons p pre' ih =>
      intro rest'
      simp only [List.cons_append, mainLoop]
      rcases hs : mainStep aOpen sOpen st p with ⟨as, st', e⟩
      cases e with
      | none => simp [ih st' rest']
      | some ex => simp

/-- C7 witness: a run consisting of one Quit event. -/
theorem C7_quit_handling_witness :
    (mainLoop true true ⟨⟨true, 0⟩, ⟨"", 0⟩⟩
        [.event .quit ⟨0, none, ⟨0, [0]⟩⟩]).2.2 = some TransExit.quitOk
    ∧ (mainLoop true true ⟨⟨true, 0⟩, ⟨"", 0⟩⟩
        [.event .quit ⟨0, none, ⟨0, [0]⟩⟩]).1.count TransAction.ackQuit = 1
    ∧ (mainLoop true true ⟨⟨true, 0⟩, ⟨"", 0⟩⟩
        [.event .quit ⟨0, none, ⟨0, [0]⟩⟩]).1.getLast? = some TransAction.ackQuit :=
  ⟨by decide,
   ((C7_quit_handling true true ⟨⟨true, 0⟩, ⟨"", 0⟩⟩ ⟨0, none, ⟨0, [0]⟩⟩ []
      [.event .quit ⟨0, none, ⟨0, [0]⟩⟩]).2.1 (by decide)).1,
   ((C7_quit_handling true true ⟨⟨true, 0⟩, ⟨"", 0⟩⟩ ⟨0, none, ⟨0, [0]⟩⟩ []
      [.event .quit ⟨0, none, ⟨0, [0]⟩⟩]).2.1 (by decide)).2⟩

/-- C8: EnterStandbyMode sets the active channel to false and
LeaveStandbyMode sets it to true; feeding EnterStandbyMode then
LeaveStandbyMode yields the active value observed as false then true, in
that order. -/
theorem C8_standby_events : ∀ (sOpen : Bool) (st : Channels) (env env' : SceneEnv)
    (r r' : WatchReader),
    (mainStep true sOpen st (.event .enterStandbyMode env)).2.1.active.value = false
    ∧ (mainStep true sOpen st (.event .leaveStandbyMode env)).2.1.active.value = true
    ∧ (borrowAndUpdate
        (mainLoop true sOpen st [.event .enterStandbyMode env]).2.1.active r).1 = false
    ∧ (borrowAndUpdate
        (mainLoop true sOpen st
          [.event .enterStandbyMode env, .event .leaveStandbyMode env']).2.1.active r').1
        = true := by
  intro sOpen st env env' r r'
  refine ⟨?_, ?_, ?_, ?_⟩ <;> simp [mainLoop, mainStep, watchSend, borrowAndUpdate]

/-- C9: a SceneApplicationChanged or SceneApplicationStateChanged event
whose foreground process id is 0 changes nothing: the step leaves both
channels untouched and emits nothing, and the loop behaves as if the event
were absent. -/
theorem C9_pid_zero_ignored : ∀ (aOpen sOpen : Bool) (st : Channels) (k : Option String)
    (nn : NativeStringResult) (rest : List PollItem),
    mainLoop aOpen sOpen st (.event .sceneApplicationChanged ⟨0, k, nn⟩ :: rest)
      = mainLoop aOpen sOpen st rest
    ∧ mainLoop aOpen sOpen st (.event .sceneApplicationStateChanged ⟨0, k, nn⟩ :: rest)
      = mainLoop aOpen sOpen st rest
    ∧ mainStep aOpen sOpen st (.event .sceneApplicationChanged ⟨0, k, nn⟩)
      = ([], st, none)
    ∧ mainStep aOpen sOpen st (.event .sceneApplicationStateChanged ⟨0, k, nn⟩)
      = ([], st, none) := by
  intro aOpen sOpen st k nn rest
  refine ⟨?_, ?_, ?_, ?_⟩ <;> simp [mainLoop, mainStep]

/-- C10: a successfully fetched application name is exactly the UTF-8
decoding of the bytes the native call wrote with the trailing null
terminator removed; bytes that are not valid UTF-8 yield an error instead
of a value; and the Translator treats that error as a non-fatal resolution
failure (logged, no state update, loop continues). -/
theorem C10_utf8_names : ∀ (r : NativeStringResult) (v : List Nat),
    (∀ s, get_application_property_string r = .ok s →
       r.err = 0 ∧ utf8DecodeString r.raw.dropLast = some s)
    ∧ (∀ s, utf8DecodeString v = some s →
       get_application_property_string ⟨0, v ++ [0]⟩ = .ok s)
    ∧ (utf8DecodeString r.raw.dropLast = none → r.err = 0 →
       get_application_property_string r = .error "Invalid characters in string")
    ∧ (∀ (aOpen sOpen : Bool) (st : Channels) (env : SceneEnv)
        (rest : List PollItem) (e : String),
       env.pid ≠ 0 → env.key ≠ none →
       get_application_property_string env.nameNative = .error e →
       mainLoop aOpen sOpen st (.event .sceneApplicationChanged env :: rest)
         = (.logNameError :: (mainLoop aOpen sOpen st rest).1,
            (mainLoop aOpen sOpen st rest).2)) := by
  intro r v
  refine ⟨fun s hs => ?_, fun s hs => ?_, fun hu herr => ?_,
    fun aOpen sOpen st env rest e hp hk hg => ?_⟩
  · rw [gaps_eq] at hs
    by_cases herr : r.err ≠ 0
    · simp [herr] at hs
    · simp only [herr, if_false] at hs
      rcases hu : utf8DecodeString r.raw.dropLast with _ | s'
      · simp [hu] at hs
      · simp [hu] at hs
        simp at herr
        exact ⟨herr, by rw [hs]⟩
  · rw [gaps_eq]
    simp [List.dropLast_concat, hs]
  · rw [gaps_eq]
    simp [herr, hu]
  · rcases hk2 : env.key with _ | k
    · exact absurd hk2 hk
    · simp [mainLoop, mainStep, hp, hk2, hg]

/-- C10 witness: the name Game round-trips with its terminator removed; an
invalid byte yields the error, which the Translator logs and drops. -/
theorem C10_utf8_names_witness :
    utf8DecodeString [71, 97, 109, 101] = some "Game"
    ∧ get_application_property_string ⟨0, [71, 97, 109, 101] ++ [0]⟩ = .ok "Game"
    ∧ utf8DecodeString ([255, 0] : List Nat).dropLast = none
    ∧ get_application_property_string ⟨0, [255, 0]⟩
        = .error "Invalid characters in string"
    ∧ mainLoop true true ⟨⟨true, 0⟩, ⟨"", 0⟩⟩
        [.event .sceneApplicationChanged ⟨1, some "k", ⟨0, [255, 0]⟩⟩]
      = ([.logNameError], ⟨⟨true, 0⟩, ⟨"", 0⟩⟩, none) := by
  refine ⟨by decide, ?_, by decide, ?_, ?_⟩
  · exact (C10_utf8_names ⟨0, [255, 0]⟩ [71, 97, 109, 101]).2.1 "Game" (by decide)
  · exact (C10_utf8_names ⟨0, [255, 0]⟩ []).2.2.1 (by decide) rfl
  · exact (C10_utf8_names ⟨0, [255, 0]⟩ []).2.2.2 true true ⟨⟨true, 0⟩, ⟨"", 0⟩⟩
      ⟨1, some "k", ⟨0, [255, 0]⟩⟩ [] "Invalid characters in string"
      (by decide) (by decide) (by rw [gaps_eq]; rfl)

end VrStatus
